import Mathlib

/-!
Verification of the B3 derivatives bulletin extractor
(`webscrapers/B3derivatives/b3derivatives.py`, class `ScraperB3Derivatives`).

Strings are modelled as `List Char`.  Python primitives (`str.find`,
slicing with clamping and negative indices, `str.split` on a one-character
separator, `str.replace`) are embedded below; the scraper's methods
(`_scrape_single_date`'s scanning loop and field loop, `_get_header`,
`_parse_str2num`, `_drop_useless_columns`, `_append_contract_column`,
`_change_contract_name`, `_change_old_maturity_code`) are translated
statement by statement.  Fallible Python operations (attribute/key/index
errors raised by pandas or dict lookups) are modelled with `Except`.
-/

/-- Errors the extractor can raise.  `unsupportedContract` carries the
offending contract code (the `AttributeError` message of `_get_header`
interpolates the code). -/
inductive ScrapeErr where
  | unsupportedContract (contract : String)
  | attributeError
  | keyError
  | typeError
  | indexError
  | valueError
  deriving DecidableEq

/-- Python `s.find(pat)` helper: scan positions left to right, returning
the first index at which `pat` is a prefix, else `-1`.  `n` is the index
of the head of the remaining list. -/
def pyFindAux (pat : List Char) : List Char → Nat → Int
  | [], n => if List.isPrefixOf pat [] then (n : Int) else -1
  | c :: rest, n =>
      if List.isPrefixOf pat (c :: rest) then (n : Int) else pyFindAux pat rest (n + 1)

/-- Python `s.find(pat)`: first occurrence index or `-1`. -/
def pyFind (s pat : List Char) : Int := pyFindAux pat s 0

/-- Clamp a Python slice bound to `[0, len]`: negative indices count from
the end (and clamp at 0), nonnegative indices clamp at `len`. -/
def pySliceIdx (len : Nat) (i : Int) : Nat :=
  if i < 0 then (if (len : Int) + i < 0 then 0 else ((len : Int) + i).toNat)
  else min i.toNat len

/-- Python `s[a:b]`. -/
def pySlice (s : List Char) (a b : Int) : List Char :=
  (s.take (pySliceIdx s.length b)).drop (pySliceIdx s.length a)

/-- Python `s[a:]`. -/
def pySliceFrom (s : List Char) (a : Int) : List Char :=
  s.drop (pySliceIdx s.length a)

/-- Python `s.split(sep)` for a one-character separator: never empty,
empty input gives `[[]]`, adjacent separators give empty pieces. -/
def pySplit (sep : Char) : List Char → List (List Char)
  | [] => [[]]
  | c :: rest =>
      let r := pySplit sep rest
      if c = sep then [] :: r else (c :: r.headD []) :: r.tail

/-- Python `int(c)` for a single character: only decimal digits parse,
anything else raises `ValueError` (modelled as `none`). -/
def pyIntOfChar (c : Char) : Option Nat :=
  if c.isDigit then some (c.toNat - 48) else none

/-- Python `str.upper` restricted to the ASCII contract codes in use. -/
def pyUpper (s : String) : String := ⟨s.data.map Char.toUpper⟩

/- Marker literals of `ScraperB3Derivatives` (class attributes
`key_string_center`, `sep_string_center`, `sep_string_right`, `str_sep`,
`merc_identifier`, `item_sep`). -/

def keyStringCenterL : List Char := "</tr><td class=\"text-center\">".toList

def sepStringCenterL : List Char := "<td class=\"text-center\">".toList

def sepStringRightL : List Char := "<td class=\"text-right\">".toList

def strSepL : List Char := "</td>".toList

def mercIdentifierL : List Char := "MercFut3 = MercFut3 + ".toList

/-- `lkeyc = len(key_string_center)` (computed in `_scrape_single_date`). -/
def lkeyc : Nat := keyStringCenterL.length

/-- `lsepc = len(sep_string_center)`. -/
def lsepc : Nat := sepStringCenterL.length

/-- `lsepr = len(sep_string_right)`. -/
def lsepr : Nat := sepStringRightL.length

/- Row Fragment Scanner: the `while isrunning` loop of
`_scrape_single_date`.  One iteration computes
`start_str = resp_str.find(key_string_center)`,
`end_str = start_str + lkeyc + resp_str[start_str + lkeyc:].find(merc_identifier)`,
slices `core = resp_str[start_str:end_str]` and advances
`resp_str = resp_str[end_str:]`. -/

/-- The `end_str` of the current scanner iteration. -/
def scanEndIdx (resp : List Char) : Int :=
  pyFind resp keyStringCenterL + (lkeyc : Int) +
    pyFind (pySliceFrom resp (pyFind resp keyStringCenterL + (lkeyc : Int))) mercIdentifierL

/-- The scanner's advanced remainder `resp_str[end_str:]`. -/
def scanAdvance (resp : List Char) : List Char :=
  pySliceFrom resp (scanEndIdx resp)

/-- Fuel-indexed scanner loop.  Each found row-start advances the
remainder by at least `lkeyc - 1 > 0` characters (proved below), so
`resp.length + 1` fuel always suffices; `scanRowsFull_eq` recovers the
fuel-free recurrence of the `while` loop.  Yields, per iteration, the
fragment `core` together with the `start_str` and `end_str` values that
remain in scope for the field loop. -/
def scanRowsAux : Nat → List Char → List (List Char × Int × Int)
  | 0, _ => []
  | fuel + 1, resp =>
      if pyFind resp keyStringCenterL > -1 then
        (pySlice resp (pyFind resp keyStringCenterL) (scanEndIdx resp),
          pyFind resp keyStringCenterL, scanEndIdx resp) ::
            scanRowsAux fuel (scanAdvance resp)
      else []

/-- All scanner iterations on a blob. -/
def scanRowsFull (resp : List Char) : List (List Char × Int × Int) :=
  scanRowsAux (resp.length + 1) resp

/-- Just the row fragments (`core` values). -/
def scanRows (resp : List Char) : List (List Char) :=
  (scanRowsFull resp).map (fun t => t.1)

/- Field Slicer: the `for x in core_v[:-5]` loop.  Note that `start_str`
and `end_str` are the same Python variables used for the fragment
boundary: when neither cell marker occurs in `x` they keep their previous
(stale) values. -/

/-- One pass of the field loop over the retained sub-fragments, threading
the mutable `start_str`/`end_str` pair.  Each output entry is `some`
of the extracted text when `to_add != ''`, `none` otherwise (the field is
left unset). -/
def sliceFields : List (List Char) → Int → Int → List (Option (List Char))
  | [], _, _ => []
  | x :: rest, s, e =>
      let fc := pyFind x sepStringCenterL
      let fr := pyFind x sepStringRightL
      let s' := if fc > -1 then fc + (lsepc : Int)
                else if fr > -1 then fr + (lsepr : Int) else s
      let e' := if fc > -1 then pyFind x strSepL
                else if fr > -1 then pyFind x strSepL else e
      let toAdd := (pySlice x s' e').filter (fun c => !(c == ' '))
      (if toAdd = [] then none else some toAdd) :: sliceFields rest s' e'

/-- `core_v[:-5]`: the sub-fragments of a fragment split on `item_sep`,
with the final 5 discarded. -/
def retainedParts (core : List Char) : List (List Char) :=
  (pySplit ';' core).take ((pySplit ';' core).length - 5)

/-- Field extraction for one fragment, starting from the stale
`start_str`/`end_str` values left by the fragment-boundary computation. -/
def rowFields (core : List Char) (s e : Int) : List (Option (List Char)) :=
  sliceFields (retainedParts core) s e

/- Schema Registry: `_get_header`. -/

def headerA : List String :=
  ["MATURITY_CODE", "OPEN_INTEREST_OPEN", "OPEN_INTEREST_CLOSE", "NUMBER_OF_TRADES",
   "TRADING_VOLUME", "FINANCIAL_VOLUME", "JUNK1", "PREVIOUS_SETTLEMENT", "INDEXED_SETTLEMENT",
   "OPENING_PRICE", "MINIMUM_PRICE", "MAXIMUM_PRICE", "AVERAGE_PRICE", "LAST_PRICE",
   "SETTLEMENT_PRICE", "CHANGE", "LAST_BID", "LAST_OFFER"]

def headerB : List String :=
  ["MATURITY_CODE", "OPEN_INTEREST_OPEN", "OPEN_INTEREST_CLOSE", "NUMBER_OF_TRADES",
   "TRADING_VOLUME", "FINANCIAL_VOLUME", "JUNK1", "OPENING_PRICE", "MINIMUM_PRICE",
   "MAXIMUM_PRICE", "AVERAGE_PRICE", "LAST_PRICE", "SETTLEMENT_PRICE", "CHANGE",
   "LAST_BID", "LAST_OFFER"]

def headerC : List String :=
  ["MATURITY_CODE", "NUMBER_OF_TRADES", "TRADING_VOLUME", "FINANCIAL_VOLUME", "JUNK1",
   "OPENING_PRICE", "MINIMUM_PRICE", "MAXIMUM_PRICE", "AVERAGE_PRICE", "LAST_PRICE",
   "SETTLEMENT_PRICE", "CHANGE", "LAST_BID", "LAST_OFFER"]

def familyACodes : List String := ["DI1", "DAP", "DDI"]

def familyBCodes : List String := ["DOL", "BGI", "ICF", "CCM", "AUD"]

def familyCCodes : List String := ["FRC"]

def supportedContracts : List String := familyACodes ++ familyBCodes ++ familyCCodes

/-- `_get_header`: schema lookup; unknown codes raise
`AttributeError(f'Contract {contract} is not available yet.')`. -/
def getHeader (contract : String) : Except ScrapeErr (List String) :=
  if contract ∈ familyACodes then .ok headerA
  else if contract ∈ familyBCodes then .ok headerB
  else if contract ∈ familyCCodes then .ok headerC
  else .error (.unsupportedContract contract)

/- Type & Column Normalizer: `_parse_str2num` and `_drop_useless_columns`.
Tables are modelled column-wise; a column is either an object column of
optional strings (`NaN` as `none`) or, after `pd.to_numeric`, a numeric
column of optional rationals. -/

inductive ColData where
  | strCol (vals : List (Option (List Char)))
  | numCol (vals : List (Option ℚ))
  deriving DecidableEq

structure DF where
  cols : List (String × ColData)
  deriving DecidableEq

def DF.getCol (df : DF) (name : String) : Option ColData :=
  df.cols.lookup name

def DF.setCol (df : DF) (name : String) (d : ColData) : DF :=
  ⟨df.cols.map (fun p => if p.1 = name then (p.1, d) else p)⟩

def DF.height (df : DF) : Nat :=
  match df.cols with
  | [] => 0
  | (_, ColData.strCol v) :: _ => v.length
  | (_, ColData.numCol v) :: _ => v.length

/-- `col2num`: the class-level set of columns parsed as values. -/
def col2numL : List String :=
  ["OPEN_INTEREST_OPEN", "OPEN_INTEREST_CLOSE", "NUMBER_OF_TRADES", "TRADING_VOLUME",
   "FINANCIAL_VOLUME", "PREVIOUS_SETTLEMENT", "INDEXED_SETTLEMENT", "OPENING_PRICE",
   "MINIMUM_PRICE", "MAXIMUM_PRICE", "AVERAGE_PRICE", "LAST_PRICE", "SETTLEMENT_PRICE",
   "LAST_BID", "LAST_OFFER"]

/-- `col2drop`: the class-level set of columns dropped as junk. -/
def col2dropL : List String := ["JUNK1", "CHANGE", "VARIATION"]

/-- The regex replace `str.replace('[^0-9.]', '')`: keep digits and the
decimal point. -/
def stripNonNum (s : List Char) : List Char :=
  s.filter (fun c => c.isDigit || c == '.')

/-- Shape accepted by `pd.to_numeric` on the post-strip alphabet
(digits and dots): at most one dot and at least one digit. -/
def numShape (s : List Char) : Bool :=
  s.all (fun c => c.isDigit || c == '.') && Nat.ble (s.count '.') 1 &&
    s.any (fun c => c.isDigit)

def natOfDigits (s : List Char) : Nat :=
  s.foldl (fun n c => 10 * n + (c.toNat - 48)) 0

/-- `pd.to_numeric(·, errors='coerce')` on one cell: unparsable values
become `NaN` (`none`), never an error.  Signs, exponents and whitespace
cannot survive the preceding `[^0-9.]` strip, so only digit/dot literals
are modelled as parsable. -/
def parseNum (s : List Char) : Option ℚ :=
  if numShape s then
    let ip := s.takeWhile (fun c => !(c == '.'))
    let fp := (s.dropWhile (fun c => !(c == '.'))).drop 1
    some (mkRat (natOfDigits (ip ++ fp)) (10 ^ fp.length))
  else none

/-- One numeric-designated column through
`df[col].str.replace(...)` followed by `pd.to_numeric(..., errors='coerce')`.
The `.str` accessor raises `AttributeError` on a non-string (already
numeric) column — pandas only allows `.str` on object/string data. -/
def colCoerce : ColData → Except ScrapeErr ColData
  | ColData.strCol vals =>
      .ok (ColData.numCol (vals.map (fun o => o.bind (fun s => parseNum (stripNonNum s)))))
  | ColData.numCol _ => .error .attributeError

/-- The `for col in cols_to_parse` loop of `_parse_str2num`; each column
is transformed independently so the set-iteration order is immaterial. -/
def parseCols : List (String × ColData) → Except ScrapeErr (List (String × ColData))
  | [] => .ok []
  | (n, d) :: rest =>
      match (if n ∈ col2numL then colCoerce d else .ok d) with
      | .error e => .error e
      | .ok d' =>
          match parseCols rest with
          | .error e => .error e
          | .ok rest' => .ok ((n, d') :: rest')

/-- `_parse_str2num`. -/
def parseStr2Num (df : DF) : Except ScrapeErr DF :=
  match parseCols df.cols with
  | .error e => .error e
  | .ok c => .ok ⟨c⟩

/-- `_drop_useless_columns`. -/
def dropUselessColumns (df : DF) : DF :=
  ⟨df.cols.filter (fun p => !(col2dropL.contains p.1))⟩

/-- The Type & Column Normalizer of the spec: `_parse_str2num` followed by
`_drop_useless_columns` (as invoked back to back in `_scrape_single_date`). -/
def normalizer (df : DF) : Except ScrapeErr DF :=
  match parseStr2Num df with
  | .error e => .error e
  | .ok d => .ok (dropUselessColumns d)

/-- `_append_contract_column`. -/
def appendContractColumn (contract : String) (df : DF) : DF :=
  ⟨("CONTRACT", ColData.strCol (List.replicate df.height (some contract.toList))) :: df.cols⟩

/- Maturity Code Translator: `_change_old_maturity_code` and
`_change_contract_name`. -/

/-- `mat_dict`. -/
def matDict : List (List Char × Char) :=
  [("JAN".toList, 'F'), ("FEV".toList, 'G'), ("MAR".toList, 'H'), ("ABR".toList, 'J'),
   ("MAI".toList, 'K'), ("JUN".toList, 'M'), ("JUL".toList, 'N'), ("AGO".toList, 'Q'),
   ("SET".toList, 'U'), ("OUT".toList, 'V'), ("NOV".toList, 'X'), ("DEZ".toList, 'Z')]

/-- `_change_old_maturity_code(code, date)`:
`month_code = mat_dict[code[:-1]]` (a missing key raises `KeyError`), then
`month_code + '0' + code[-1]` when `int(code[-1]) >= int(date[-1])`,
else `month_code + '1' + code[-1]`. -/
def changeOldMaturityCode (code date : List Char) : Except ScrapeErr (List Char) :=
  match matDict.lookup code.dropLast with
  | none => .error .keyError
  | some m =>
      match code.getLast? with
      | none => .error .indexError
      | some dc =>
          match pyIntOfChar dc with
          | none => .error .valueError
          | some dv =>
              match date.getLast? with
              | none => .error .indexError
              | some yc =>
                  match pyIntOfChar yc with
                  | none => .error .valueError
                  | some yv => .ok [m, if yv ≤ dv then '0' else '1', dc]

/-- `_change_contract_name(df, date)`: legacy format is detected from
`len(df['MATURITY_CODE'].iloc[0]) >= 4` (first row only); when detected,
`_change_old_maturity_code` is applied to every cell of the column
(`len` of a `NaN` float or a numeric column raises `TypeError`). -/
def changeContractName (df : DF) (date : List Char) : Except ScrapeErr DF :=
  match DF.getCol df "MATURITY_CODE" with
  | none => .error .keyError
  | some (ColData.numCol _) => .error .typeError
  | some (ColData.strCol vals) =>
      match vals.head? with
      | none => .error .indexError
      | some none => .error .typeError
      | some (some c0) =>
          if 4 ≤ c0.length then
            match vals.mapM (fun o =>
              match o with
              | none => Except.error ScrapeErr.typeError
              | some c => (changeOldMaturityCode c date).map some) with
            | .error e => .error e
            | .ok vals2 => .ok (DF.setCol df "MATURITY_CODE" (ColData.strCol vals2))
          else .ok df

/- Assembly of `_scrape_single_date` from the pieces above (the HTTP
response text is a parameter). -/

/-- The row assignment `row_df[header[i]].loc[date] = to_add`, for the
values produced by one fragment: an `IndexError` surfaces when a value is
set past the header (`header[i]` with `i >= len(header)`); sub-fragments
beyond the header whose value stays unset never index the header. -/
def buildRow (header : List String) (fields : List (Option (List Char))) :
    Except ScrapeErr (List (Option (List Char))) :=
  if (fields.drop header.length).any (fun o => o.isSome) then .error .indexError
  else .ok ((List.range header.length).map (fun j => (fields.get? j).getD none))

/-- All rows appended by the scanning loop. -/
def buildRows (header : List String) (resp : List Char) :
    Except ScrapeErr (List (List (Option (List Char)))) :=
  (scanRowsFull resp).mapM (fun t => buildRow header (rowFields t.1 t.2.1 t.2.2))

/-- The DataFrame accumulated by the loop: one object column per header
name, cells unset where the slicer left the field null. -/
def dfFromRows (header : List String) (rows : List (List (Option (List Char)))) : DF :=
  ⟨header.enum.map (fun p =>
    (p.2, ColData.strCol (rows.map (fun r => (r.get? p.1).getD none))))⟩

/-- `_scrape_single_date(contract, date)` with the fetched page text as
the `respStr` argument; returns `none` where Python returns `None`
(empty extraction). -/
def scrapeSingleDate (contract : String) (date respStr : List Char) :
    Except ScrapeErr (Option DF) :=
  match getHeader (pyUpper contract) with
  | .error e => .error e
  | .ok header =>
      match buildRows header respStr with
      | .error e => .error e
      | .ok rows =>
          match parseStr2Num (dfFromRows header rows) with
          | .error e => .error e
          | .ok df1 =>
              let df2 := appendContractColumn (pyUpper contract) (dropUselessColumns df1)
              if rows.isEmpty then .ok none
              else
                match changeContractName df2 date with
                | .error e => .error e
                | .ok df3 => .ok (some df3)

deriving instance DecidableEq for Except

/-! ### Lemmas about the Python string primitives -/

theorem isPrefixOf_true_iff : ∀ (l₁ l₂ : List Char), l₁.isPrefixOf l₂ = true ↔ l₁ <+: l₂
  | [], l₂ => by simp [ List.isPrefixOf]
  | a :: l₁, [] => by simp [ List.isPrefixOf]
  | a :: l₁, b :: l₂ => by
      simp [ List.isPrefixOf, List.cons_prefix_cons, isPrefixOf_true_iff l₁ l₂]

theorem pyFindAux_ge (pat : List Char) : ∀ (s : List Char) (n : Nat), -1 ≤ pyFindAux pat s n
  | [], n => by unfold pyFindAux; split <;> omega
  | c :: rest, n => by
      unfold pyFindAux; split
      · omega
      · exact pyFindAux_ge pat rest (n + 1)

theorem pyFind_ge (s pat : List Char) : -1 ≤ pyFind s pat :=
  pyFindAux_ge pat s 0

theorem pyFindAux_spec (pat : List Char) : ∀ (s : List Char) (n k : Nat),
    pyFindAux pat s n = (k : Int) → n ≤ k ∧ pat <+: s.drop (k - n)
  | [], n, k => by
      unfold pyFindAux; split
      · intro h
        have hk : n = k := by exact_mod_cast h
        subst hk
        rename_i hpre
        have hp : pat = [] := by
          cases pat with
          | nil => rfl
          | cons a l => simp [ List.isPrefixOf] at hpre
        simp [hp]
      · intro h
        exfalso
        omega
  | c :: rest, n, k => by
      unfold pyFindAux; split
      · intro h
        have hk : n = k := by exact_mod_cast h
        subst hk
        rename_i hpre
        refine ⟨Nat.le_refl n, ?_⟩
        rw [Nat.sub_self]
        exact (isPrefixOf_true_iff pat (c :: rest)).mp hpre
      · intro h
        obtain ⟨h1, h2⟩ := pyFindAux_spec pat rest (n + 1) k h
        refine ⟨by omega, ?_⟩
        have hkn : k - n = (k - (n + 1)) + 1 := by omega
        rw [hkn]
        simpa using h2

theorem pyFind_drop (s pat : List Char) (h : 0 ≤ pyFind s pat) :
    pat <+: s.drop (pyFind s pat).toNat := by
  have hk : pyFindAux pat s 0 = (((pyFind s pat).toNat : Nat) : Int) := by
    rw [Int.toNat_of_nonneg h]; rfl
  simpa using (pyFindAux_spec pat s 0 (pyFind s pat).toNat hk).2

theorem pyFind_add_le (s pat : List Char) (hp : pat ≠ []) (h : 0 ≤ pyFind s pat) :
    (pyFind s pat).toNat + pat.length ≤ s.length := by
  have hl := (pyFind_drop s pat h).length_le
  rw [List.length_drop] at hl
  have hp1 : 0 < pat.length := List.length_pos.mpr hp
  omega

/-! ### Scanner progress: each iteration that finds a row-start marker
advances the remainder by at least `lkeyc - 1 = 28` characters. -/

theorem scanEnd_ge (resp : List Char) (h : pyFind resp keyStringCenterL > -1) :
    (28 : Int) ≤ scanEndIdx resp ∧ 29 ≤ resp.length := by
  have h0 : 0 ≤ pyFind resp keyStringCenterL := by omega
  have hk : keyStringCenterL ≠ [] := by decide
  have hkl : keyStringCenterL.length = 29 := by decide
  have hle := pyFind_add_le resp keyStringCenterL hk h0
  rw [hkl] at hle
  have hg : -1 ≤ pyFind (pySliceFrom resp (pyFind resp keyStringCenterL + (lkeyc : Int)))
      mercIdentifierL := pyFind_ge _ _
  have hlk : (lkeyc : Int) = 29 := by decide
  unfold scanEndIdx
  constructor
  · omega
  · omega

theorem scanAdvance_bound (resp : List Char) (h : pyFind resp keyStringCenterL > -1) :
    28 ≤ pySliceIdx resp.length (scanEndIdx resp) ∧
      (scanAdvance resp).length + 28 ≤ resp.length := by
  obtain ⟨he, hlen⟩ := scanEnd_ge resp h
  have hk : 28 ≤ pySliceIdx resp.length (scanEndIdx resp) := by
    unfold pySliceIdx
    rw [if_neg (by omega)]
    have h1 : 28 ≤ (scanEndIdx resp).toNat := by omega
    exact le_min h1 (by omega)
  refine ⟨hk, ?_⟩
  have hub : pySliceIdx resp.length (scanEndIdx resp) ≤ resp.length := by
    unfold pySliceIdx
    split
    · split <;> omega
    · exact Nat.min_le_right _ _
  unfold scanAdvance pySliceFrom
  rw [List.length_drop]
  omega

theorem scanAdvance_lt (resp : List Char) (h : pyFind resp keyStringCenterL > -1) :
    (scanAdvance resp).length < resp.length := by
  have := (scanAdvance_bound resp h).2
  omega

/-! ### The fuel of `scanRowsAux` is irrelevant once it exceeds the blob
length, recovering the `while` loop's recurrence. -/

theorem scanRowsAux_congr : ∀ (f1 : Nat) (resp : List Char) (f2 : Nat),
    resp.length < f1 → resp.length < f2 → scanRowsAux f1 resp = scanRowsAux f2 resp
  | 0, resp, _, h1, _ => absurd h1 (Nat.not_lt_zero _)
  | _ + 1, resp, 0, _, h2 => absurd h2 (Nat.not_lt_zero _)
  | f + 1, resp, g + 1, h1, h2 => by
      simp only [ scanRowsAux]
      split
      · rename_i h
        have hlt := scanAdvance_lt resp h
        rw [scanRowsAux_congr f (scanAdvance resp) g (by omega) (by omega)]
      · rfl

theorem scanRowsFull_eq (resp : List Char) :
    scanRowsFull resp =
      if pyFind resp keyStringCenterL > -1 then
        (pySlice resp (pyFind resp keyStringCenterL) (scanEndIdx resp),
          pyFind resp keyStringCenterL, scanEndIdx resp) :: scanRowsFull (scanAdvance resp)
      else [] := by
  unfold scanRowsFull
  conv_lhs => rw [show resp.length + 1 = resp.length + 1 from rfl]
  simp only [ scanRowsAux]
  split
  · rename_i h
    have hlt := scanAdvance_lt resp h
    rw [scanRowsAux_congr resp.length (scanAdvance resp) ((scanAdvance resp).length + 1)
      (by omega) (Nat.lt_succ_self _)]
    rfl
  · rfl

/-! ### Length of a Python split -/

theorem pySplit_ne_nil (sep : Char) : ∀ (l : List Char), pySplit sep l ≠ []
  | [] => by simp [ pySplit]
  | c :: rest => by
      simp only [ pySplit]
      split <;> simp

theorem pySplit_length (sep : Char) : ∀ (l : List Char),
    (pySplit sep l).length = l.count sep + 1
  | [] => by simp [ pySplit]
  | c :: rest => by
      have ih := pySplit_length sep rest
      have hne := pySplit_ne_nil sep rest
      simp only [ pySplit]
      by_cases hc : c = sep
      · subst hc
        simp [ List.count_cons, ih]
      · rw [if_neg hc]
        cases hr : pySplit sep rest with
        | nil => exact absurd hr hne
        | cons a t =>
            rw [hr] at ih
            simp only [ List.headD_cons, List.tail_cons, List.length_cons] at ih ⊢
            simp [ List.count_cons, Ne.symm hc]
            omega

/-- When the row-start marker is found at `f`, the slice
`resp[f : f + 28]` is exactly the first 28 characters of the marker
itself (used when the bulletin-end marker is missing, so that
`end_str = f + lkeyc - 1`). -/
theorem pySlice_key_trunc (resp : List Char) (h : pyFind resp keyStringCenterL > -1) :
    pySlice resp (pyFind resp keyStringCenterL) (pyFind resp keyStringCenterL + 28) =
      keyStringCenterL.take 28 := by
  have h0 : 0 ≤ pyFind resp keyStringCenterL := by omega
  obtain ⟨fn, hfn⟩ : ∃ fn : Nat, pyFind resp keyStringCenterL = (fn : Int) :=
    ⟨(pyFind resp keyStringCenterL).toNat, (Int.toNat_of_nonneg h0).symm⟩
  have hkl : keyStringCenterL.length = 29 := by decide
  have hle := pyFind_add_le resp keyStringCenterL (by decide) h0
  rw [hfn, hkl, Int.toNat_ofNat] at hle
  obtain ⟨t, ht⟩ := pyFind_drop resp keyStringCenterL h0
  rw [hfn, Int.toNat_ofNat] at ht
  unfold pySlice pySliceIdx
  rw [hfn]
  have hcast : (fn : Int) + 28 = ((fn + 28 : Nat) : Int) := by push_cast; ring
  rw [hcast]
  rw [if_neg (by omega), if_neg (by omega), Int.toNat_ofNat, Int.toNat_ofNat]
  rw [min_eq_left (by omega), min_eq_left (by omega)]
  rw [List.drop_take]
  have h28 : fn + 28 - fn = 28 := by omega
  rw [h28, ← ht, List.take_append_eq_append_take, hkl]
  simp

/-! ### Claim theorems -/

/-- C10: on every iteration of the Row Fragment Scanner's loop that finds
a row-start marker, the scan pointer advances by at least
`lkeyc - 1 = 28` characters (strictly positive), so the remaining blob
strictly shrinks and the loop terminates on every finite blob. -/
theorem c10_scan_progress (resp : List Char) (h : pyFind resp keyStringCenterL > -1) :
    28 ≤ pySliceIdx resp.length (scanEndIdx resp) ∧
      (scanAdvance resp).length + 28 ≤ resp.length ∧
      (scanAdvance resp).length < resp.length := by
  obtain ⟨h1, h2⟩ := scanAdvance_bound resp h
  exact ⟨h1, h2, by omega⟩

theorem c10_scan_progress_witness :
    28 ≤ pySliceIdx keyStringCenterL.length (scanEndIdx keyStringCenterL) ∧
      (scanAdvance keyStringCenterL).length + 28 ≤ keyStringCenterL.length ∧
      (scanAdvance keyStringCenterL).length < keyStringCenterL.length :=
  c10_scan_progress keyStringCenterL (by decide)

/-- C3 counterexample: a blob made of two adjacent row-start markers
contains a row-start marker but no bulletin-end marker anywhere (in
particular none after the row-start), yet the scanner does not stop
there: it produces two fragments, one per marker, rather than at most
the one current fragment. -/
theorem c3_scanner_continues_counterexample :
    pyFind (keyStringCenterL ++ keyStringCenterL) keyStringCenterL > -1 ∧
      pyFind (pySliceFrom (keyStringCenterL ++ keyStringCenterL)
        (pyFind (keyStringCenterL ++ keyStringCenterL) keyStringCenterL + (lkeyc : Int)))
        mercIdentifierL = -1 ∧
      pyFind (keyStringCenterL ++ keyStringCenterL) mercIdentifierL = -1 ∧
      (scanRowsFull (keyStringCenterL ++ keyStringCenterL)).length = 2 := by
  decide

/-- C3 amended: when the bulletin-end marker is not found after a
row-start marker, `end_str` collapses to `start_str + lkeyc - 1`, so the
iteration emits a truncated fragment — the first 28 characters of the
row-start marker itself, which yields no field values — and scanning
continues on the remainder (it does not stop, but it never reads past
the blob and still terminates). -/
theorem c3_truncated_fragment_amended (resp : List Char)
    (h : pyFind resp keyStringCenterL > -1)
    (h2 : pyFind (pySliceFrom resp (pyFind resp keyStringCenterL + (lkeyc : Int)))
      mercIdentifierL = -1) :
    scanRowsFull resp =
      (keyStringCenterL.take 28, pyFind resp keyStringCenterL,
        pyFind resp keyStringCenterL + 28) ::
        scanRowsFull (pySliceFrom resp (pyFind resp keyStringCenterL + 28)) ∧
      rowFields (keyStringCenterL.take 28) (pyFind resp keyStringCenterL)
        (pyFind resp keyStringCenterL + 28) = [] := by
  have hend : scanEndIdx resp = pyFind resp keyStringCenterL + 28 := by
    unfold scanEndIdx
    rw [h2]
    have hlk : (lkeyc : Int) = 29 := by decide
    omega
  constructor
  · rw [scanRowsFull_eq resp, if_pos h, hend, pySlice_key_trunc resp h]
    rw [show scanAdvance resp = pySliceFrom resp (pyFind resp keyStringCenterL + 28) from by
      unfold scanAdvance; rw [hend]]
  · have hparts : retainedParts (keyStringCenterL.take 28) = [] := by decide
    unfold rowFields
    rw [hparts]
    rfl

theorem c3_truncated_fragment_witness :
    scanRowsFull keyStringCenterL =
      (keyStringCenterL.take 28, pyFind keyStringCenterL keyStringCenterL,
        pyFind keyStringCenterL keyStringCenterL + 28) ::
        scanRowsFull (pySliceFrom keyStringCenterL
          (pyFind keyStringCenterL keyStringCenterL + 28)) ∧
      rowFields (keyStringCenterL.take 28) (pyFind keyStringCenterL keyStringCenterL)
        (pyFind keyStringCenterL keyStringCenterL + 28) = [] :=
  c3_truncated_fragment_amended keyStringCenterL (by decide) (by decide)

/-- C6 counterexample: a blob with exactly two row-start markers followed
by one trailing bulletin-end marker yields ONE fragment, not two — the
first fragment runs from the first row-start to the single end marker and
swallows the second row-start. -/
theorem c6_single_end_marker_counterexample :
    (scanRows (keyStringCenterL ++ keyStringCenterL ++ mercIdentifierL)).length = 1 := by
  decide

/-- C6 amended: a blob with two row-start markers, each followed by its
own bulletin-end marker, yields exactly two fragments (with only a single
trailing end marker the two rows are merged into one fragment); a blob
with zero row-start markers yields zero fragments and the loop ends
normally. -/
theorem c6_two_fragments_amended :
    (scanRows (keyStringCenterL ++ mercIdentifierL ++ keyStringCenterL ++
      mercIdentifierL)).length = 2 ∧
      (∀ resp : List Char, pyFind resp keyStringCenterL = -1 → scanRowsFull resp = []) := by
  constructor
  · decide
  · intro resp h
    rw [scanRowsFull_eq resp, if_neg (by omega)]

theorem c6_two_fragments_witness : scanRowsFull mercIdentifierL = [] :=
  c6_two_fragments_amended.2 mercIdentifierL (by decide)

/-- C7 counterexample: for the supported contract FRC the schema has
`N = 14` fields, but from a fragment with exactly `N + 5 = 19`
field-separator literals the slicer retains `(19 + 1) - 5 = 15`
sub-fragments, not `N = 14`. -/
theorem c7_offbyone_counterexample :
    getHeader "FRC" = .ok headerC ∧ headerC.length = 14 ∧
      (List.replicate 19 ';').count ';' = 19 ∧
      (retainedParts (List.replicate 19 ';')).length = 15 := by
  decide

/-- C7 amended: for every supported contract code with field list of
length `N`, the Field Slicer retains exactly `N` sub-fragments from a
fragment containing exactly `N + 4` field-separator literals (that is,
`N + 5` sub-fragments, of which the final 5 are discarded). -/
theorem c7_retained_count_amended (contract : String) (header : List String)
    (core : List Char) (_hh : getHeader contract = .ok header)
    (hc : core.count ';' = header.length + 4) :
    (retainedParts core).length = header.length := by
  have hs := pySplit_length ';' core
  unfold retainedParts
  rw [List.length_take, hs, hc]
  omega

theorem c7_retained_count_witness :
    (retainedParts (List.replicate 18 ';')).length = headerC.length :=
  c7_retained_count_amended "FRC" headerC (List.replicate 18 ';') (by decide) (by decide)

/- Concrete inputs for the C2 counterexample: a fragment whose first
retained sub-fragment carries the center-cell marker (inherited from the
row-start marker) and whose second retained sub-fragment contains neither
cell marker but is longer than the stale slice bounds. -/

def c1frag : List Char := "xxxxxxxxxxxxxxxxxxxxxxxxxxxxxYZ".toList

def coreC2 : List Char :=
  keyStringCenterL ++ "AB</td>".toList ++ ";".toList ++ c1frag ++ ";;;;;".toList

def blobC2 : List Char := coreC2 ++ mercIdentifierL

/-- C2 counterexample: scanning `blobC2` produces the single fragment
`coreC2` (with `start_str = 0`, `end_str = 73`); its second retained
sub-fragment `c1frag` contains neither the center-cell nor the
right-cell marker, yet the Field Slicer does NOT leave that field null:
the stale bounds `(29, 31)` left by the first sub-fragment slice the
text `"YZ"` out of it and the field is set. -/
theorem c2_stale_bounds_counterexample :
    scanRowsFull blobC2 = [(coreC2, 0, 73)] ∧
      (retainedParts coreC2).get? 1 = some c1frag ∧
      pyFind c1frag sepStringCenterL = -1 ∧
      pyFind c1frag sepStringRightL = -1 ∧
      (rowFields coreC2 0 73).get? 1 = some (some ('Y' :: 'Z' :: [])) := by
  decide

/-- C2 amended: a retained sub-fragment with neither cell marker never
aborts the row (the slicer is total); the field is only guaranteed to be
left null when the stale-bounds slice strips to the empty string — in
particular every EMPTY marker-less sub-fragment leaves its field null,
whatever the inherited bounds are; a nonempty marker-less sub-fragment
may instead be assigned text cut by the stale bounds. -/
theorem c2_empty_subfragment_null (xs : List (List Char)) (s e : Int) (i : Nat)
    (h : xs.get? i = some []) :
    (sliceFields xs s e).get? i = some none := by
  induction xs generalizing s e i with
  | nil => simp at h
  | cons x rest ih =>
      cases i with
      | zero =>
          have hx : x = [] := by simpa using h
          subst hx
          have hfc : pyFind ([] : List Char) sepStringCenterL = -1 := by decide
          have hfr : pyFind ([] : List Char) sepStringRightL = -1 := by decide
          simp [ sliceFields, hfc, hfr, pySlice]
      | succ n =>
          simp only [ List.get?] at h
          simpa [ sliceFields] using ih _ _ n h

theorem c2_empty_subfragment_null_witness :
    (sliceFields [[]] 0 0).get? 0 = some none :=
  c2_empty_subfragment_null [[]] 0 0 0 (by decide)

/-- `parseCols` leaves a table untouched when none of its column names is
numeric-designated. -/
theorem parseCols_no_numeric : ∀ (cols : List (String × ColData)),
    (∀ p ∈ cols, p.1 ∉ col2numL) → parseCols cols = .ok cols
  | [], _ => rfl
  | (n, d) :: rest, h => by
      have hn : n ∉ col2numL := h (n, d) (List.mem_cons_self _ _)
      have hrest := parseCols_no_numeric rest (fun p hp => h p (List.mem_cons_of_mem _ hp))
      simp only [ parseCols]
      rw [if_neg hn, hrest]

/-- Filtering twice with the same predicate filters once. -/
theorem filter_twice {α : Type} (p : α → Bool) : ∀ (l : List α),
    (l.filter p).filter p = l.filter p
  | [] => rfl
  | a :: l => by
      by_cases h : p a
      · simp [ List.filter_cons, h, filter_twice p l]
      · simp [ List.filter_cons, h, filter_twice p l]

/-- Dropping the noise columns is idempotent. -/
theorem dropUseless_idem (df : DF) :
    dropUselessColumns (dropUselessColumns df) = dropUselessColumns df :=
  congrArg DF.mk (filter_twice _ df.cols)

/- Concrete tables for the C1 counterexample: a one-column raw table with
a numeric-designated column, and its image under one normalizer run. -/

def dfRaw : DF := ⟨[("LAST_PRICE", ColData.strCol [some "1.5".toList])]⟩

def dfNormalized : DF := ⟨[("LAST_PRICE", ColData.numCol [some (mkRat 15 10)])]⟩

/-- C1 counterexample: the normalizer is not idempotent.  One run on
`dfRaw` succeeds and produces `dfNormalized` (column coerced to numeric);
re-running the normalizer on that very output raises — `_parse_str2num`
applies the `.str` accessor to the now-numeric `LAST_PRICE` column, which
is an `AttributeError` in pandas — instead of being a no-op. -/
theorem c1_normalizer_not_idempotent :
    normalizer dfRaw = .ok dfNormalized ∧
      normalizer dfNormalized = .error .attributeError := by
  constructor
  · decide
  · decide

/-- C1 amended: noise-column dropping is idempotent, and the full
normalizer is idempotent on tables having no numeric-designated column
(both runs succeed with the same output); but on output tables that do
contain a numeric-designated column a second run raises rather than
passing the data through. -/
theorem c1_normalizer_idempotent_amended :
    (∀ df : DF, dropUselessColumns (dropUselessColumns df) = dropUselessColumns df) ∧
      (∀ df : DF, (∀ p ∈ df.cols, p.1 ∉ col2numL) →
        normalizer df = .ok (dropUselessColumns df) ∧
          normalizer (dropUselessColumns df) = .ok (dropUselessColumns df)) := by
  refine ⟨dropUseless_idem, ?_⟩
  intro df h
  have h1 : parseCols df.cols = .ok df.cols := parseCols_no_numeric df.cols h
  have h2 : parseCols (dropUselessColumns df).cols = .ok (dropUselessColumns df).cols :=
    parseCols_no_numeric _ (fun p hp => h p (List.mem_of_mem_filter hp))
  constructor
  · simp [ normalizer, parseStr2Num, h1]
  · simp [ normalizer, parseStr2Num, h2, dropUseless_idem df]

theorem c1_normalizer_idempotent_witness :
    normalizer (DF.mk []) = .ok (dropUselessColumns (DF.mk [])) :=
  (c1_normalizer_idempotent_amended.2 (DF.mk []) (by simp)).1

/-- C8: the numeric coercion never raises on raw (string) data — for any
table whose numeric-designated columns are still string columns,
`_parse_str2num` returns a table; the raw value `"1.234,56"` strips to
the single contiguous literal `"1.23456"`, which parses to a number; and
any value containing no digit at all (whatever other characters it has)
coerces to null, not an error. -/
theorem c8_numeric_coercion :
    (∀ df : DF, (∀ p ∈ df.cols, p.1 ∈ col2numL → ∃ vals, p.2 = ColData.strCol vals) →
      ∃ df2, parseStr2Num df = .ok df2) ∧
      stripNonNum "1.234,56".toList = "1.23456".toList ∧
      parseNum (stripNonNum "1.234,56".toList) = some (mkRat 123456 100000) ∧
      (∀ s : List Char, (∀ c ∈ s, c.isDigit = false) → parseNum (stripNonNum s) = none) := by
  refine ⟨?_, by decide, by decide, ?_⟩
  · intro df h
    suffices hs : ∀ cols : List (String × ColData),
        (∀ p ∈ cols, p.1 ∈ col2numL → ∃ vals, p.2 = ColData.strCol vals) →
        ∃ out, parseCols cols = .ok out by
      obtain ⟨out, hout⟩ := hs df.cols h
      exact ⟨⟨out⟩, by simp [ parseStr2Num, hout]⟩
    intro cols
    induction cols with
    | nil => exact fun _ => ⟨[], rfl⟩
    | cons p rest ih =>
        intro hall
        obtain ⟨n, d⟩ := p
        obtain ⟨out, hout⟩ := ih (fun q hq => hall q (List.mem_cons_of_mem _ hq))
        by_cases hn : n ∈ col2numL
        · obtain ⟨vals, hv⟩ := hall (n, d) (List.mem_cons_self _ _) hn
          simp only at hv
          subst hv
          refine ⟨(n, ColData.numCol (vals.map (fun o =>
            o.bind (fun s => parseNum (stripNonNum s))))) :: out, ?_⟩
          simp only [ parseCols]
          rw [if_pos hn]
          simp [ colCoerce, hout]
        · refine ⟨(n, d) :: out, ?_⟩
          simp only [ parseCols]
          rw [if_neg hn, hout]
  · intro s h
    have hnd : (stripNonNum s).any (fun c => c.isDigit) = false := by
      rw [List.any_eq_false]
      intro c hc
      simp [h c (List.mem_of_mem_filter hc)]
    have hshape : numShape (stripNonNum s) = false := by
      unfold numShape
      rw [hnd]
      simp
    simp [ parseNum, hshape]

theorem c8_numeric_coercion_witness :
    (∃ df2, parseStr2Num (DF.mk [("LAST_PRICE", ColData.strCol [some "1.5".toList])]) =
      .ok df2) ∧
      parseNum (stripNonNum "no quote".toList) = none :=
  ⟨c8_numeric_coercion.1 (DF.mk [("LAST_PRICE", ColData.strCol [some "1.5".toList])])
      (by
        intro p hp _
        simp only [ List.mem_singleton] at hp
        subst hp
        exact ⟨[some "1.5".toList], rfl⟩),
    c8_numeric_coercion.2.2.2 "no quote".toList (by decide)⟩

/- Concrete table for the C4 counterexample: first row legacy, second row
canonical. -/

def dfMix : DF := ⟨[("MATURITY_CODE", ColData.strCol [some "JAN8".toList, some "F23".toList])]⟩

/-- C4 counterexample: a non-empty table whose first maturity code is
legacy (`"JAN8"`) and whose second is canonical (`"F23"`).  The length
test on the FIRST row triggers translation of every row, and the
canonical code `"F23"` is not returned unchanged — the whole translation
raises a `KeyError` (`mat_dict["F2"]`). -/
theorem c4_mixed_table_counterexample :
    DF.getCol dfMix "MATURITY_CODE" =
        some (ColData.strCol [some "JAN8".toList, some "F23".toList]) ∧
      changeContractName dfMix "01/01/2020".toList = .error .keyError := by
  constructor
  · decide
  · decide

/-- C4 amended: legacy-format detection is structural but inspects only
the first row's code: when the first maturity code has length at most 3,
`_change_contract_name` returns the table wholly unchanged — so every
canonical 3-character code is returned unchanged whenever the first code
is canonical (in particular in homogeneous tables). -/
theorem c4_first_row_detection_amended (df : DF) (vals : List (Option (List Char)))
    (c0 date : List Char)
    (h1 : DF.getCol df "MATURITY_CODE" = some (ColData.strCol vals))
    (h2 : vals.head? = some (some c0)) (h3 : c0.length ≤ 3) :
    changeContractName df date = .ok df := by
  simp only [ changeContractName, h1, h2]
  rw [if_neg (by omega)]

theorem c4_first_row_detection_witness :
    changeContractName (DF.mk [("MATURITY_CODE", ColData.strCol [some "F23".toList])])
      "01/01/2020".toList =
      .ok (DF.mk [("MATURITY_CODE", ColData.strCol [some "F23".toList])]) :=
  c4_first_row_detection_amended _ [some "F23".toList] "F23".toList _
    (by decide) (by decide) (by decide)

/-- C5: for every legacy maturity code — a recognized month abbreviation
followed by one digit — and every date string ending in a digit (as
mm/dd/yyyy dates do), the translator emits the month letter, then the
decade digit chosen by the rule "trailing code digit ≥ last digit of the
year gives '0', otherwise '1'", then the code's trailing digit. -/
theorem c5_decade_rule (ab ds : List Char) (m dc yc : Char)
    (hm : matDict.lookup ab = some m) (hd : dc.isDigit = true) (hy : yc.isDigit = true) :
    changeOldMaturityCode (ab ++ [dc]) (ds ++ [yc]) =
      .ok [m, if yc.toNat - 48 ≤ dc.toNat - 48 then '0' else '1', dc] := by
  unfold changeOldMaturityCode
  rw [List.dropLast_concat, hm]
  simp [ List.getLast?_concat, pyIntOfChar, hd, hy]

/-- Witness for C5, covering the decade-boundary instances from the spec:
`"JAN8"` against a year ending in `"0"` gives `"F08"` (8 ≥ 0, current
decade) and against a year ending in `"9"` gives `"F18"` (8 < 9, next
decade). -/
theorem c5_decade_rule_witness :
    changeOldMaturityCode "JAN8".toList "01/01/2020".toList = .ok "F08".toList ∧
      changeOldMaturityCode "JAN8".toList "12/31/2019".toList = .ok "F18".toList := by
  constructor
  · have h := c5_decade_rule "JAN".toList "01/01/202".toList 'F' '8' '0'
      (by decide) (by decide) (by decide)
    rw [show "JAN".toList ++ ['8'] = "JAN8".toList from by decide,
      show "01/01/202".toList ++ ['0'] = "01/01/2020".toList from by decide] at h
    rw [h]
    decide
  · have h := c5_decade_rule "JAN".toList "12/31/201".toList 'F' '8' '9'
      (by decide) (by decide) (by decide)
    rw [show "JAN".toList ++ ['8'] = "JAN8".toList from by decide,
      show "12/31/201".toList ++ ['9'] = "12/31/2019".toList from by decide] at h
    rw [h]
    decide

/-- C9: for every contract code whose normalized (upper-cased) form is in
none of the three supported families, schema lookup fails with the
unsupported-contract error naming that code, and the whole
`_scrape_single_date` call aborts with that same error — no partial
result. -/
theorem c9_unsupported_contract (contract : String) (date respStr : List Char)
    (h : pyUpper contract ∉ supportedContracts) :
    getHeader (pyUpper contract) = .error (.unsupportedContract (pyUpper contract)) ∧
      scrapeSingleDate contract date respStr =
        .error (.unsupportedContract (pyUpper contract)) := by
  have h1 : pyUpper contract ∉ familyACodes := fun hm =>
    h (List.mem_append_left _ (List.mem_append_left _ hm))
  have h2 : pyUpper contract ∉ familyBCodes := fun hm =>
    h (List.mem_append_left _ (List.mem_append_right _ hm))
  have h3 : pyUpper contract ∉ familyCCodes := fun hm =>
    h (List.mem_append_right _ hm)
  have hg : getHeader (pyUpper contract) = .error (.unsupportedContract (pyUpper contract)) := by
    unfold getHeader
    rw [if_neg h1, if_neg h2, if_neg h3]
  refine ⟨hg, ?_⟩
  unfold scrapeSingleDate
  rw [hg]

theorem c9_unsupported_contract_witness :
    getHeader (pyUpper "XYZ") = .error (.unsupportedContract (pyUpper "XYZ")) ∧
      scrapeSingleDate "XYZ" "01/01/2020".toList [] =
        .error (.unsupportedContract (pyUpper "XYZ")) :=
  c9_unsupported_contract "XYZ" "01/01/2020".toList [] (by decide)
